import Mathlib

/-!
Verification of the multi-device transport multiplexing and protocol-framing
engine of `utils/gui/moteus_gui/tview.py`.

Shallow embedding conventions:
* byte strings (`bytes`) are `List Nat` (each element a byte value);
* text lines (`str`) are `List Char`;
* suspension (`await ... wait()`) is modelled by making the environment's
  future contributions explicit (lists of appended chunks, lists of inbound
  lines, poll outcomes) and returning `Option`/a dedicated constructor when
  the code would keep waiting;
* loops that consume at least one buffered byte per iteration are written
  with an explicit fuel argument equal to the buffer length, which is always
  sufficient (proved via fuel-irrelevance lemmas).
-/

/-- `MAX_SEND = 61` (tview.py line 87). -/
def MAX_SEND : Nat := 61

/-- `MAX_HISTORY_SIZE = 100` (tview.py line 86). -/
def MAX_HISTORY_SIZE : Nat := 100

/-- `a.startswith(b)` for strings modelled as `List Char`:
`startsWithL s pat` is true iff `pat` is an initial segment of `s`. -/
def startsWithL : List Char → List Char → Bool
  | _, [] => true
  | [], _ :: _ => false
  | a :: as, b :: bs => a = b && startsWithL as bs

/-- `DeviceStream.process_message` (tview.py lines 531-552).
Input: the current inbound buffer `readData` (`self._read_data`) and the
frame payload `data` (`message.data`).  Output: the new inbound buffer, the
boolean the coroutine returns (`datalen > 0`), and whether waiting readers
were notified (`self._read_condition.notify_all()` was reached). -/
def process_message (readData : List Nat) (data : List Nat) :
    List Nat × Bool × Bool :=
  if data.length < 3 then (readData, false, false)
  else if data.getD 0 0 ≠ 0x41 then (readData, false, false)
  else if data.getD 1 0 ≠ 1 then (readData, false, false)
  else if data.getD 2 0 > MAX_SEND then (readData, false, false)
  else
    let datalen := data.getD 2 0
    if datalen > data.length - 3 then (readData, false, false)
    else (readData ++ (data.drop 3).take datalen, decide (0 < datalen), true)

/-- Little-endian 32-bit integer from (the first four of) a byte list:
`struct.unpack('<I', ...)` in tview.py line 587. -/
def le32 (b : List Nat) : Nat :=
  b.getD 0 0 + 256 * b.getD 1 0 + 65536 * b.getD 2 0 + 16777216 * b.getD 3 0

/-- Result of one attempt of `DeviceStream.read_sized_block`'s loop body. -/
inductive BlockResult
  | fail
  | block (data : List Nat)
  | suspend
deriving DecidableEq, Repr

/-- `DeviceStream.read_sized_block` (tview.py lines 584-597), one pass over
the loop body given the current inbound buffer `rd`.  Returns the outcome
(`fail` for `return False`, `block` for a returned slice, `suspend` when the
code would wait for more bytes) together with the buffer that remains. -/
def read_sized_block (rd : List Nat) : BlockResult × List Nat :=
  if rd.length ≥ 5 then
    let size := le32 ((rd.drop 1).take 4)
    if size > 2 ^ 24 then (.fail, rd)
    else if rd.length ≥ 5 + size then
      (.block ((rd.drop 5).take size), rd.drop (5 + size))
    else (.suspend, rd)
  else (.suspend, rd)

/-- Outcome of one iteration of the line loop in `Device.read_data`
(tview.py lines 764-772): skip the line and keep reading, raise
`CommandError` on it, or break out and proceed to `read_sized_block`. -/
inductive ReadDataStep
  | skip
  | raiseErr (line : List Char)
  | proceed
deriving DecidableEq, Repr

/-- One iteration of the loop of `Device.read_data(name)` (tview.py lines
764-772): `if not line == f'cdata {name}': continue`, then
`if line.startswith('ERR'): raise CommandError('', line)`, then `break`. -/
def read_data_step (name line : List Char) : ReadDataStep :=
  if ¬ (line = ['c', 'd', 'a', 't', 'a', ' '] ++ name) then .skip
  else if startsWithL line ['E', 'R', 'R'] then .raiseErr line
  else .proceed

/-- Byte is `\r` (13) or `\n` (10): the terminators searched for by
`DeviceStream._read_maybe_empty_line` (tview.py line 555). -/
def isNewlineByte (b : Nat) : Bool := b = 13 || b = 10

/-- `DeviceStream._read_maybe_empty_line` (tview.py lines 554-562): find the
first `\r` or `\n` in the buffer; if none, return `none` (Python returns
`None`); otherwise split off and return everything up to and including that
terminator, together with the remaining buffer. -/
def read_maybe_empty_line (rd : List Nat) :
    Option (List Nat × List Nat) :=
  match rd.findIdx? isNewlineByte with
  | none => none
  | some i => some (rd.take (i + 1), rd.drop (i + 1))

/-- Python whitespace bytes stripped by `bytes.rstrip()`:
space, tab, newline, carriage return, vertical tab, form feed. -/
def isSpaceByte (b : Nat) : Bool :=
  b = 32 || b = 9 || b = 10 || b = 13 || b = 11 || b = 12

/-- `maybe_line.rstrip()` (tview.py line 568): drop trailing whitespace
bytes. -/
def rstripB (l : List Nat) : List Nat :=
  (l.reverse.dropWhile isSpaceByte).reverse

/-- `DeviceStream.readline` (tview.py lines 564-572) driven by fuel: each
loop iteration either consumes at least one buffered byte or waits for more
data.  `none` means the coroutine waits (no non-empty line is completable
from the current buffer); `some (line, rest)` is the returned stripped line
together with the buffer left behind.  The Python guard `if maybe_line:` is
always true when `_read_maybe_empty_line` returns a line, since the line
includes its terminator byte. -/
def readlineF : Nat → List Nat → Option (List Nat × List Nat)
  | 0, _ => none
  | fuel + 1, rd =>
    match read_maybe_empty_line rd with
    | none => none
    | some (line, rest) =>
      if (rstripB line).length ≠ 0 then some (rstripB line, rest)
      else readlineF fuel rest

/-- `DeviceStream.readline` on a buffer: fuel `rd.length` always suffices
because every loop iteration consumes at least the terminator byte. -/
def readlineB (rd : List Nat) : Option (List Nat × List Nat) :=
  readlineF rd.length rd

/-- Repeatedly call `readlineB`, collecting the returned lines in order,
until the stream would suspend.  Fuel-driven like `readlineF`. -/
def readAllLinesF : Nat → List Nat → List (List Nat)
  | 0, _ => []
  | fuel + 1, rd =>
    match readlineB rd with
    | none => []
    | some (l, rest) => l :: readAllLinesF fuel rest

/-- All lines obtainable from a buffer by successive `readline` calls. -/
def readAllLines (rd : List Nat) : List (List Nat) :=
  readAllLinesF rd.length rd

/-- Encode a list of lines into a buffer, each line followed by a single
`\r` terminator (the shape produced by a device sending CR-terminated
lines). -/
def encodeLines (ls : List (List Nat)) : List Nat :=
  ls.foldr (fun l acc => l ++ 13 :: acc) []

/-- `DeviceStream.resynchronize` (tview.py lines 574-582) driven by the
sequence of chunks the producer appends at each successive wake-up: starting
from buffer `buf`, each wake-up appends the next chunk `g`; if the buffer
length did not change over the wait (`newlen == oldlen`, i.e. `g` is empty),
the whole buffer is discarded and the call returns the final buffer
(`some []`); otherwise the loop waits again.  `none` means every provided
wake-up grew the buffer and the call is still waiting. -/
def resyncRun (buf : List Nat) : List (List Nat) → Option (List Nat)
  | [] => none
  | g :: gs =>
    if (buf ++ g).length = buf.length then some []
    else resyncRun (buf ++ g) gs

/-- Per-device backoff counters of the scheduler
(`device.error_count`, `device.poll_count` in tview.py lines 609-610). -/
structure DevCounters where
  errorCount : Nat
  pollCount : Nat
deriving DecidableEq, Repr

/-- Outcome of the bounded dispatch wait after polling one device
(tview.py lines 1246-1261): `success` when `_dispatch_until` saw a frame
whose source id equals the polled device's number within `POLL_TIMEOUT_S`,
`timeout` when `asyncio.TimeoutError` fired. -/
inductive PollEvent
  | success
  | timeout
deriving DecidableEq, Repr

/-- `(message.arbitration_id >> 8) & 0xff` (tview.py line 1211): the source
device id of an inbound frame. -/
def sourceId (arbitrationId : Nat) : Nat := (arbitrationId / 256) % 256

/-- The scheduler's treatment of one device in one cycle of the poll loop
(tview.py lines 1239-1261).  If `poll_count` is nonzero, it is decremented
and the device is skipped; otherwise the device is polled and the counters
updated from the outcome: success resets `error_count` and `poll_count` to
0, timeout sets `error_count = min(1000, error_count + 1)` and
`poll_count = error_count`.  The boolean records whether the device was
actually polled this cycle. -/
def deviceCycle (st : DevCounters) (ev : PollEvent) : DevCounters × Bool :=
  if st.pollCount ≠ 0 then
    ({ st with pollCount := st.pollCount - 1 }, false)
  else
    match ev with
    | .success => (⟨0, 0⟩, true)
    | .timeout =>
      let e := min 1000 (st.errorCount + 1)
      (⟨e, e⟩, true)

/-- Iterate `deviceCycle` over a sequence of cycle outcomes (the outcome is
only consulted on cycles where the device is actually polled). -/
def runCycles (st : DevCounters) : List PollEvent → DevCounters
  | [] => st
  | ev :: evs => runCycles (deviceCycle st ev).1 evs

/-- The cycle outcomes describing `k` consecutive poll timeouts for one
device: before each timeout the device first sits out its current backoff
(`min 1000 j` skipped cycles after the `j`-th timeout, during which the
outcome is irrelevant), then is polled and times out again. -/
def timeoutTrace : Nat → List PollEvent
  | 0 => []
  | k + 1 =>
    timeoutTrace k ++ List.replicate (min 1000 k) .timeout ++ [.timeout]

/-- Scheduler-side view of one device inside `_run_transport_iteration`:
its id (`device.number`), the queued outbound bytes of its stream
(`DeviceStream._write_data`), and its backoff counters. -/
structure SchedDev where
  number : Nat
  writeData : List Nat
  errorCount : Nat
  pollCount : Nat
deriving DecidableEq, Repr

/-- A transport-visible event of one scheduler cycle: a diagnostic-write
frame handed to the transport carrying `chunk` for device `number`, or a
diagnostic-read (poll) frame for device `number`. -/
inductive TEvent
  | writeFrame (number : Nat) (chunk : List Nat)
  | pollFrame (number : Nat)
deriving DecidableEq, Repr

/-- `DeviceStream.maybe_emit_one` (tview.py lines 521-529): if the write
queue is empty, do nothing; otherwise pop at most `MAX_SEND` bytes from its
front and hand them to the transport as one write frame. -/
def maybe_emit_one (d : SchedDev) : SchedDev × List TEvent :=
  if d.writeData.length = 0 then (d, [])
  else ({ d with writeData := d.writeData.drop MAX_SEND },
        [.writeFrame d.number (d.writeData.take MAX_SEND)])

/-- First loop of `_run_transport_iteration` (tview.py lines 1234-1235):
`for device in self.devices: await device.emit_any_writes()`. -/
def flushPhase : List SchedDev → List SchedDev × List TEvent
  | [] => ([], [])
  | d :: ds =>
    let (d', evs) := maybe_emit_one d
    let (ds', evs') := flushPhase ds
    (d' :: ds', evs ++ evs')

/-- Second loop of `_run_transport_iteration` (tview.py lines 1239-1261)
for one device, with the dispatch outcome supplied by `out` (keyed by the
device number): emits a poll frame exactly when the device is polled. -/
def pollDevice (out : Nat → PollEvent) (d : SchedDev) :
    SchedDev × List TEvent :=
  let (st, polled) := deviceCycle ⟨d.errorCount, d.pollCount⟩ (out d.number)
  ({ d with errorCount := st.errorCount, pollCount := st.pollCount },
   if polled then [.pollFrame d.number] else [])

/-- Second loop of `_run_transport_iteration` over all devices. -/
def pollPhase (out : Nat → PollEvent) :
    List SchedDev → List SchedDev × List TEvent
  | [] => ([], [])
  | d :: ds =>
    let (d', evs) := pollDevice out d
    let (ds', evs') := pollPhase out ds
    (d' :: ds', evs ++ evs')

/-- `TviewMainWindow._run_transport_iteration` (tview.py lines 1229-1263):
flush phase over all devices, then poll phase over all devices; the event
list is the cycle's transport traffic in order. -/
def runIteration (out : Nat → PollEvent) (ds : List SchedDev) :
    List SchedDev × List TEvent :=
  let (ds1, evF) := flushPhase ds
  let (ds2, evP) := pollPhase out ds1
  (ds2, evF ++ evP)

/-- The prefix `"emit "`. -/
def emitMark : List Char := ['e', 'm', 'i', 't', ' ']

/-- The prefix `"schema "`. -/
def schemaMark : List Char := ['s', 'c', 'h', 'e', 'm', 'a', ' ']

/-- The prefix `"OK"`. -/
def okMark : List Char := ['O', 'K']

/-- The prefix `"ERR"`. -/
def errMark : List Char := ['E', 'R', 'R']

/-- Outcome of `Device.command` once it stops reading: a successful
response (`return result.getvalue()`) or a raised
`CommandError(message, line)`. -/
inductive CmdOutcome
  | ok (response : List Char)
  | err (cmd : List Char) (line : List Char)
deriving DecidableEq, Repr

/-- First loop of `Device.command` (tview.py lines 827-831): read lines
until one that does not start with `"emit "` or `"schema "`. -/
def commandSkipPhase (lines : List (List Char)) : List (List Char) :=
  lines.dropWhile fun l => startsWithL l emitMark || startsWithL l schemaMark

/-- Second loop of `Device.command` (tview.py lines 834-843): starting from
the current line, raise on an `"ERR"` prefix, return the accumulator on an
`"OK"` prefix, otherwise append `line + '\n'` to the accumulator and read
the next line.  `none` means the inbound line sequence is exhausted and the
coroutine waits forever. -/
def commandLoop (message : List Char) :
    List Char → List (List Char) → List Char → Option CmdOutcome
  | line, rest, acc =>
    if startsWithL line errMark then some (.err message line)
    else if startsWithL line okMark then some (.ok acc)
    else
      match rest with
      | [] => none
      | l :: ls => commandLoop message l ls (acc ++ line ++ ['\n'])

/-- `Device.command(message)` (tview.py lines 821-843) driven by the
sequence of inbound lines its `readline` calls will yield: the pair of the
bytes written (`message` terminated by CRLF, line 822) and the outcome. -/
def command (message : List Char) (lines : List (List Char)) :
    List Char × Option CmdOutcome :=
  (message ++ ['\r', '\n'],
   match commandSkipPhase lines with
   | [] => none
   | l :: ls => commandLoop message l ls [])

/-- Newline-join as built by `result.write(line + '\n')` over a list of
accumulated lines. -/
def joinNL (ls : List (List Char)) : List Char :=
  ls.foldr (fun l acc => l ++ '\n' :: acc) []

/-- A decoded telemetry sample, abstracted as its field-path valuation:
`_get_data(struct, path)` (tview.py lines 107-114) resolves a dotted path
against the sample and is modelled as applying the sample to the path. -/
def Struct : Type := List Char → ℚ

/-- Value computed for one signal by `Record.update`: a number (raw field
lookup or `numpy.mean` over the history's field values), or the standard
deviation of a list of field values, kept symbolic (`stddevOf vs` stands
for `numpy.std(vs)`, whose square is the population variance of `vs` and is
irrational in general). -/
inductive SigVal
  | num (q : ℚ)
  | stddevOf (vals : List ℚ)
deriving DecidableEq, Repr

/-- `numpy.mean` over exact rationals. -/
def listMean (vals : List ℚ) : ℚ := vals.sum / vals.length

/-- The value computed for the signal with key `key` in `Record.update`
(tview.py lines 425-435), given the new sample and the post-append history:
`__STDDEV_`-prefixed keys take the standard deviation of the field over the
whole history, `__MEAN_`-prefixed keys its mean, and any other key the raw
field of the new sample.  Python's `key.split(prefix)[1]` is modelled as
dropping the prefix, which agrees with it whenever the marker does not
recur inside the field path (it cannot: paths are dotted identifiers). -/
def computeSignalValue (key : List Char) (struct : Struct)
    (history : List Struct) : SigVal :=
  if startsWithL key ['_', '_', 'S', 'T', 'D', 'D', 'E', 'V', '_'] then
    .stddevOf (history.map fun x => x (key.drop 9))
  else if startsWithL key ['_', '_', 'M', 'E', 'A', 'N', '_'] then
    .num (listMean (history.map fun x => x (key.drop 7)))
  else .num (struct key)

/-- A `Record` (tview.py lines 406-438), restricted to what `update`
touches: the retained history and, for each signal key, the number of
subscriber callbacks currently attached to that `RecordSignal`
(`RecordSignal.update` invokes every callback and returns
`len(self._callbacks) != 0`, lines 192-195). -/
structure RecordM where
  history : List Struct
  signals : List (List Char × Nat)

/-- `Record.update(struct)` (tview.py lines 419-438): append the sample to
the history, drop the oldest sample if the length now exceeds
`MAX_HISTORY_SIZE`, compute every signal's value over the updated state,
and return the updated record, the computed values, and whether at least
one signal had a subscriber (`count != 0`, where `signal.update` returns
whether its callback set was non-empty). -/
def recordUpdate (r : RecordM) (struct : Struct) :
    RecordM × List (List Char × SigVal) × Bool :=
  let history1 := r.history ++ [struct]
  let history2 :=
    if history1.length > MAX_HISTORY_SIZE then history1.drop 1 else history1
  let vals := r.signals.map fun s => (s.1, computeSignalValue s.1 struct history2)
  let count := (r.signals.filter fun s => s.2 ≠ 0).length
  ({ r with history := history2 }, vals, decide (count ≠ 0))

/-- `Device.do_data(name)` (tview.py lines 774-786) given the value the
sized-block read eventually returns (`none` for `False`, `some data` for a
returned block), the telemetry records as an association list, and the
external schema decoder `decode` (`record.archive.read`).  `if not data:`
is true both for `False` and for an empty block; `if record:` is always
true for a `Record` instance and is dropped.  Returns the updated records
map. -/
def do_data (records : List (List Char × RecordM)) (name : List Char)
    (blockRet : Option (List Nat)) (decode : List Nat → Struct) :
    List (List Char × RecordM) :=
  match blockRet with
  | none => records
  | some data =>
    if data.length = 0 then records
    else if (records.find? fun kv => kv.1 = name).isNone then records
    else
      records.map fun kv =>
        if kv.1 = name then (kv.1, (recordUpdate kv.2 (decode data)).1)
        else kv

/-! ## Theorems -/

/-- Claim C3: `DeviceStream.process_message` silently drops every malformed
payload — fewer than 3 bytes, wrong marker byte (`!= 0x41`), wrong channel
byte (`!= 0x01`), declared length over `MAX_SEND = 61`, or declared length
exceeding the bytes remaining after the 3-byte header — leaving the inbound
buffer unchanged, waking no reader, raising nothing, and returning `false`;
on a well-formed payload it appends exactly the declared-length data bytes
and returns whether that length was nonzero. -/
theorem process_message_spec (rd data : List Nat) :
    ((data.length < 3 ∨ data.getD 0 0 ≠ 0x41 ∨ data.getD 1 0 ≠ 1 ∨
        data.getD 2 0 > MAX_SEND ∨ data.getD 2 0 > data.length - 3) →
      process_message rd data = (rd, false, false)) ∧
    (3 ≤ data.length → data.getD 0 0 = 0x41 → data.getD 1 0 = 1 →
      data.getD 2 0 ≤ MAX_SEND → data.getD 2 0 ≤ data.length - 3 →
      process_message rd data =
        (rd ++ (data.drop 3).take (data.getD 2 0),
         decide (0 < data.getD 2 0), true)) := by
  constructor
  · intro h
    simp only [process_message]
    split_ifs with h1 h2 h3 h4 h5
    · rfl
    · rfl
    · rfl
    · rfl
    · rfl
    · exfalso
      rcases h with h | h | h | h | h
      · exact h1 h
      · exact h2 h
      · exact h3 h
      · exact h4 h
      · exact h5 h
  · intro h1 h2 h3 h4 h5
    simp only [process_message]
    split_ifs with g1 g2 g3 g4 g5
    · omega
    · exact absurd h2 g2
    · exact absurd h3 g3
    · omega
    · omega
    · rfl

/-- Witness for C3: a malformed payload (wrong marker) is dropped, and a
well-formed payload `[0x41, 1, 2, 7, 8]` appends its two data bytes. -/
theorem process_message_spec_witness :
    process_message [9] [0x40, 1, 2, 7, 8] = ([9], false, false) ∧
    process_message [9] [0x41, 1, 2, 7, 8] =
      ([9] ++ (([0x41, 1, 2, 7, 8].drop 3).take
        ([0x41, 1, 2, 7, 8].getD 2 0)),
       decide (0 < [0x41, 1, 2, 7, 8].getD 2 0), true) :=
  ⟨(process_message_spec [9] [0x40, 1, 2, 7, 8]).1 (by decide),
   (process_message_spec [9] [0x41, 1, 2, 7, 8]).2 (by decide) (by decide)
     (by decide) (by decide) (by decide)⟩

/-- Claim C4: `DeviceStream.read_sized_block` on a buffer
`X :: [5,0,0,0] ++ payload ++ extra` with a 5-byte payload returns exactly
the payload and leaves `extra` buffered; and whenever the little-endian
32-bit length in bytes 1..4 exceeds `2 ^ 24`, the read fails without
consuming any buffered bytes. -/
theorem read_sized_block_spec :
    (∀ (x : Nat) (payload extra : List Nat), payload.length = 5 →
      read_sized_block (x :: 5 :: 0 :: 0 :: 0 :: (payload ++ extra)) =
        (.block payload, extra)) ∧
    (∀ rd : List Nat, 5 ≤ rd.length → 2 ^ 24 < le32 ((rd.drop 1).take 4) →
      read_sized_block rd = (.fail, rd)) := by
  constructor
  · intro x payload extra h
    unfold read_sized_block
    have hlen : (x :: 5 :: 0 :: 0 :: 0 :: (payload ++ extra)).length =
        10 + extra.length := by simp [h]; omega
    rw [if_pos (by omega)]
    have hle : le32 (((x :: 5 :: 0 :: 0 :: 0 :: (payload ++ extra)).drop 1).take 4)
        = 5 := by simp [le32]
    rw [hle]
    rw [if_neg (by norm_num)]
    rw [if_pos (by omega)]
    have hdrop : (x :: 5 :: 0 :: 0 :: 0 :: (payload ++ extra)).drop 5 =
        payload ++ extra := rfl
    have htake : (payload ++ extra).take 5 = payload := by
      rw [← h]; exact List.take_left payload extra
    have hdrop2 : (payload ++ extra).drop 5 = extra := by
      rw [← h]; exact List.drop_left payload extra
    simp only [hdrop, htake]
    have : (x :: 5 :: 0 :: 0 :: 0 :: (payload ++ extra)).drop (5 + 5) = extra := by
      show (payload ++ extra).drop 5 = extra
      exact hdrop2
    rw [this]
  · intro rd h1 h2
    unfold read_sized_block
    rw [if_pos (by omega)]
    rw [if_pos (by omega)]

/-- Witness for C4: the concrete buffer `[7,5,0,0,0,1,2,3,4,5,9]` yields
block `[1,2,3,4,5]` with `[9]` left over, and a buffer declaring length
`2^24 + 1` fails with the buffer intact. -/
theorem read_sized_block_spec_witness :
    read_sized_block (7 :: 5 :: 0 :: 0 :: 0 :: ([1, 2, 3, 4, 5] ++ [9])) =
      (.block [1, 2, 3, 4, 5], [9]) ∧
    read_sized_block [0, 1, 0, 0, 1] = (.fail, [0, 1, 0, 0, 1]) :=
  ⟨(read_sized_block_spec).1 7 [1, 2, 3, 4, 5] [9] (by decide),
   (read_sized_block_spec).2 [0, 1, 0, 0, 1] (by decide) (by decide)⟩

/-- Claim C9: the `ERR` branch of `Device.read_data` is unreachable — the
preceding check only lets through lines equal to `'cdata ' + name`, which
never start with `"ERR"` — so `read_data` never raises a command error, and
every line starting with `"ERR"` is skipped (the loop keeps waiting). -/
theorem read_data_err_unreachable :
    (∀ name line r, read_data_step name line ≠ .raiseErr r) ∧
    (∀ name line, startsWithL line errMark = true →
      read_data_step name line = .skip) := by
  constructor
  · intro name line r
    unfold read_data_step
    split_ifs with h1 h2
    · exfalso
      subst h1
      simp [startsWithL] at h2
    · simp
    · simp
  · intro name line h
    unfold read_data_step
    split_ifs with h1 h2
    · exfalso
      subst h1
      simp [startsWithL, errMark] at h
    · exfalso
      subst h1
      simp [startsWithL, errMark] at h
    · rfl

/-- Witness for C9: concretely, the line `"ERR unknown"` is skipped by
`read_data` rather than raising. -/
theorem read_data_err_unreachable_witness :
    read_data_step ['m', '1'] ['E', 'R', 'R', ' ', 'x'] = .skip :=
  (read_data_err_unreachable).2 ['m', '1'] ['E', 'R', 'R', ' ', 'x'] (by decide)

/-- Claim C7: `DeviceStream.resynchronize` (i) always leaves an empty buffer
when it returns, (ii) does not return as long as every wait cycle ends with
the buffer strictly longer than before, and (iii) returns, discarding the
whole buffer, exactly at the first wake-up that produced no growth. -/
theorem resynchronize_spec :
    (∀ (buf : List Nat) (gs : List (List Nat)) (b : List Nat),
      resyncRun buf gs = some b → b = []) ∧
    (∀ (buf : List Nat) (gs : List (List Nat)),
      (∀ g ∈ gs, g ≠ ([] : List Nat)) → resyncRun buf gs = none) ∧
    (∀ (buf : List Nat) (pre gs : List (List Nat)),
      (∀ g ∈ pre, g ≠ ([] : List Nat)) →
      resyncRun buf (pre ++ [] :: gs) = some []) := by
  refine ⟨?_, ?_, ?_⟩
  · intro buf gs
    induction gs generalizing buf with
    | nil => intro b h; simp [resyncRun] at h
    | cons g gs ih =>
      intro b h
      rw [resyncRun] at h
      split_ifs at h with hg
      · exact (Option.some_inj.mp h).symm
      · exact ih (buf ++ g) b h
  · intro buf gs
    induction gs generalizing buf with
    | nil => intro _; rfl
    | cons g gs ih =>
      intro hall
      rw [resyncRun]
      rw [if_neg]
      · exact ih (buf ++ g) fun g' hg' => hall g' (List.mem_cons_of_mem g hg')
      · have : g ≠ [] := hall g (List.mem_cons_self g gs)
        simp [List.length_append]
        exact this
  · intro buf pre gs
    induction pre generalizing buf with
    | nil =>
      intro _
      rw [List.nil_append, resyncRun]
      rw [if_pos (by simp)]
    | cons p pre ih =>
      intro hall
      rw [List.cons_append, resyncRun]
      rw [if_neg]
      · exact ih (buf ++ p) fun g' hg' => hall g' (List.mem_cons_of_mem p hg')
      · have : p ≠ [] := hall p (List.mem_cons_self p pre)
        simp [List.length_append]
        exact this

/-- Witness for C7: with buffer `[1]`, growth `[2]` then a quiescent cycle
returns `some []`; two growing cycles alone do not return. -/
theorem resynchronize_spec_witness :
    resyncRun [1] [[2], []] = some [] ∧
    resyncRun [1] [[2], [3]] = none :=
  ⟨(resynchronize_spec).2.2 [1] [[2]] [] (by decide),
   (resynchronize_spec).2.1 [1] [[2], [3]] (by decide)⟩

/-- `runCycles` distributes over list append. -/
theorem runCycles_append (st : DevCounters) (a b : List PollEvent) :
    runCycles st (a ++ b) = runCycles (runCycles st a) b := by
  induction a generalizing st with
  | nil => rfl
  | cons ev evs ih => simp [runCycles, ih]

/-- While `pollCount = p > 0`, the next `p` cycles each decrement
`pollCount` without polling, regardless of the cycle outcomes. -/
theorem runCycles_drain (e p : Nat) (ev : PollEvent) (rest : List PollEvent) :
    runCycles ⟨e, p⟩ (List.replicate p ev ++ rest) =
      runCycles ⟨e, 0⟩ rest := by
  induction p with
  | zero => rfl
  | succ p ih =>
    rw [List.replicate_succ, List.cons_append, runCycles]
    have hc : deviceCycle ⟨e, p + 1⟩ ev = (⟨e, p⟩, false) := by
      simp [deviceCycle]
    rw [hc]
    exact ih

/-- Claim C2: (i) after `k` consecutive poll timeouts (the device sitting
out its backoff between polls), `errorCount` and `pollCount` both equal
`min 1000 k` — linear backoff saturating at the cap 1000; (ii) a device
with `pollCount > 0` has `pollCount` decremented and is skipped without
being polled that cycle; (iii) a single successful poll resets both
counters to 0 regardless of the prior state. -/
theorem scheduler_backoff_spec :
    (∀ k : Nat, runCycles ⟨0, 0⟩ (timeoutTrace k) = ⟨min 1000 k, min 1000 k⟩) ∧
    (∀ (st : DevCounters) (ev : PollEvent), st.pollCount ≠ 0 →
      deviceCycle st ev = ({ st with pollCount := st.pollCount - 1 }, false)) ∧
    (∀ e : Nat, deviceCycle ⟨e, 0⟩ .success = (⟨0, 0⟩, true)) := by
  refine ⟨?_, ?_, ?_⟩
  · intro k
    induction k with
    | zero => simp [timeoutTrace, runCycles]
    | succ k ih =>
      rw [timeoutTrace, List.append_assoc, runCycles_append, ih,
        runCycles_drain]
      have hc : deviceCycle ⟨min 1000 k, 0⟩ .timeout =
          (⟨min 1000 (min 1000 k + 1), min 1000 (min 1000 k + 1)⟩, true) := by
        simp [deviceCycle]
      rw [runCycles, hc]
      show (⟨min 1000 (min 1000 k + 1), min 1000 (min 1000 k + 1)⟩ :
        DevCounters) = ⟨min 1000 (k + 1), min 1000 (k + 1)⟩
      have : min 1000 (min 1000 k + 1) = min 1000 (k + 1) := by omega
      rw [this]
  · intro st ev hp
    unfold deviceCycle
    rw [if_pos hp]
  · intro e
    simp [deviceCycle]

/-- Witness for C2: three consecutive timeouts leave both counters at 3; a
backed-off device `⟨7, 2⟩` is skipped down to `⟨7, 1⟩`; a successful poll
of `⟨7, 0⟩` resets to `⟨0, 0⟩`. -/
theorem scheduler_backoff_spec_witness :
    runCycles ⟨0, 0⟩ (timeoutTrace 3) = ⟨min 1000 3, min 1000 3⟩ ∧
    deviceCycle ⟨7, 2⟩ .timeout = (⟨7, 1⟩, false) ∧
    deviceCycle ⟨7, 0⟩ .success = (⟨0, 0⟩, true) :=
  ⟨(scheduler_backoff_spec).1 3,
   (scheduler_backoff_spec).2.1 ⟨7, 2⟩ .timeout (by decide),
   (scheduler_backoff_spec).2.2 7⟩

/-- Every event emitted by the flush phase is a write frame. -/
theorem flushPhase_events (ds : List SchedDev) :
    ∀ e ∈ (flushPhase ds).2, ∃ n c, e = TEvent.writeFrame n c := by
  induction ds with
  | nil => intro e he; simp [flushPhase] at he
  | cons d ds ih =>
    intro e he
    rw [flushPhase] at he
    simp only [List.mem_append] at he
    rcases he with he | he
    · unfold maybe_emit_one at he
      split_ifs at he with hw
      · simp at he
      · simp at he
        exact ⟨d.number, d.writeData.take MAX_SEND, he⟩
    · exact ih e he

/-- Every event emitted by the poll phase is a poll frame. -/
theorem pollPhase_events (out : Nat → PollEvent) (ds : List SchedDev) :
    ∀ e ∈ (pollPhase out ds).2, ∃ n, e = TEvent.pollFrame n := by
  induction ds with
  | nil => intro e he; simp [pollPhase] at he
  | cons d ds ih =>
    intro e he
    rw [pollPhase] at he
    simp only [List.mem_append] at he
    rcases he with he | he
    · unfold pollDevice at he
      rcases hc : deviceCycle ⟨d.errorCount, d.pollCount⟩ (out d.number) with
        ⟨st, polled⟩
      rw [hc] at he
      cases polled with
      | false => simp at he
      | true =>
        simp at he
        exact ⟨d.number, he⟩
    · exact ih e he

/-- The transport events of one scheduler iteration are its flush events
followed by its poll events. -/
theorem runIteration_events (out : Nat → PollEvent) (ds : List SchedDev) :
    (runIteration out ds).2 =
      (flushPhase ds).2 ++ (pollPhase out (flushPhase ds).1).2 := rfl

/-- Claim C6 (amended): within one iteration of
`_run_transport_iteration`, (i) every write frame precedes every poll
frame in the cycle's transport-event order — all flushes happen before the
first poll — and (ii) a device's flush hands over only the first
`MAX_SEND = 61` queued bytes (one chunk), leaving the rest queued. -/
theorem flush_before_poll_amended :
    (∀ (out : Nat → PollEvent) (ds : List SchedDev) (i j n m : Nat)
        (c : List Nat),
      ((runIteration out ds).2)[i]? = some (TEvent.writeFrame n c) →
      ((runIteration out ds).2)[j]? = some (TEvent.pollFrame m) →
      i < j) ∧
    (∀ d : SchedDev, d.writeData ≠ [] →
      maybe_emit_one d =
        ({ d with writeData := d.writeData.drop MAX_SEND },
         [TEvent.writeFrame d.number (d.writeData.take MAX_SEND)])) := by
  constructor
  · intro out ds i j n m c hi hj
    rw [runIteration_events] at hi hj
    have hjlen : (flushPhase ds).2.length ≤ j := by
      by_contra hlt
      push_neg at hlt
      rw [List.getElem?_append, if_pos hlt] at hj
      have hmem : TEvent.pollFrame m ∈ (flushPhase ds).2 :=
        List.getElem?_mem hj
      obtain ⟨n', c', h'⟩ := flushPhase_events ds _ hmem
      exact TEvent.noConfusion h'
    have hilen : i < (flushPhase ds).2.length := by
      by_contra hge
      push_neg at hge
      rw [List.getElem?_append, if_neg (not_lt.mpr hge)] at hi
      have hmem : TEvent.writeFrame n c ∈ (pollPhase out (flushPhase ds).1).2 :=
        List.getElem?_mem hi
      obtain ⟨n', h'⟩ := pollPhase_events out (flushPhase ds).1 _ hmem
      exact TEvent.noConfusion h'
    omega
  · intro d hd
    unfold maybe_emit_one
    rw [if_neg]
    simpa using hd

/-- Counterexample for C6 as stated: a single device with 62 queued bytes
is polled in the same cycle while one of its queued bytes has not been
handed to the transport — the flush phase emits only the first 61 bytes, so
not "every device's queued outbound bytes" are flushed before the first
poll. -/
theorem flush_before_poll_counterexample :
    (runIteration (fun _ => .success)
        [⟨1, List.replicate 62 0, 0, 0⟩]).2 =
      [TEvent.writeFrame 1 (List.replicate 61 0), TEvent.pollFrame 1] ∧
    ((runIteration (fun _ => .success)
        [⟨1, List.replicate 62 0, 0, 0⟩]).1.map SchedDev.writeData) =
      [[0]] := by decide

/-- Witness for C6 (amended): in a two-device cycle the write frame sits at
index 0, before the poll frames, and a nonempty queue `[5]` is emitted as
one chunk. -/
theorem flush_before_poll_amended_witness :
    (0 : Nat) < 1 ∧
    maybe_emit_one ⟨1, [5], 0, 0⟩ =
      (⟨1, ([] : List Nat), 0, 0⟩, [TEvent.writeFrame 1 [5]]) :=
  ⟨(flush_before_poll_amended).1 (fun _ => .success)
      [⟨1, [5], 0, 0⟩, ⟨2, [], 0, 0⟩] 0 1 1 1 [5] (by decide) (by decide),
   (flush_before_poll_amended).2 ⟨1, [5], 0, 0⟩ (by decide)⟩

/-- A line starting with `"OK"` does not start with `"ERR"`. -/
theorem ok_not_err (l : List Char) (h : startsWithL l okMark = true) :
    startsWithL l errMark = false := by
  cases l with
  | nil => simp [startsWithL, okMark] at h
  | cons c cs =>
    simp [startsWithL, okMark] at h
    simp [startsWithL, errMark, h.1]

/-- `dropWhile` jumps over a run of elements satisfying the predicate. -/
theorem dropWhile_all_append (p : List Char → Bool) (es rest : List (List Char))
    (h : ∀ l ∈ es, p l = true) :
    List.dropWhile p (es ++ rest) = List.dropWhile p rest := by
  induction es with
  | nil => rfl
  | cons e es ih =>
    rw [List.cons_append, List.dropWhile_cons]
    rw [h e (List.mem_cons_self e es)]
    exact ih fun l hl => h l (List.mem_cons_of_mem e hl)

/-- One-step unfolding of `commandLoop`. -/
theorem commandLoop_unfold (msg line : List Char) (rest : List (List Char))
    (acc : List Char) :
    commandLoop msg line rest acc =
      if startsWithL line errMark then some (.err msg line)
      else if startsWithL line okMark then some (.ok acc)
      else
        match rest with
        | [] => none
        | l :: ls => commandLoop msg l ls (acc ++ line ++ ['\n']) := by
  cases rest <;> rfl

/-- The response loop of `command` on body lines none of which start with
`"ERR"` or `"OK"`, followed by an `"OK"`-prefixed line, accumulates every
body line (newline-terminated) and returns the accumulation. -/
theorem commandLoop_ok (msg : List Char) (middle : List (List Char)) :
    ∀ (b acc okLine : List Char),
      (∀ l ∈ b :: middle,
        startsWithL l errMark = false ∧ startsWithL l okMark = false) →
      startsWithL okLine okMark = true →
      commandLoop msg b (middle ++ [okLine]) acc =
        some (.ok (acc ++ joinNL (b :: middle))) := by
  induction middle with
  | nil =>
    intro b acc okLine hb hok
    have hbe := (hb b (List.mem_cons_self b [])).1
    have hbo := (hb b (List.mem_cons_self b [])).2
    rw [List.nil_append, commandLoop_unfold, hbe, hbo]
    simp only [Bool.false_eq_true, if_false]
    rw [commandLoop_unfold, ok_not_err okLine hok, hok]
    simp only [Bool.false_eq_true, if_false, if_true]
    simp [joinNL, List.append_assoc]
  | cons m ms ih =>
    intro b acc okLine hb hok
    have hbe := (hb b (List.mem_cons_self b (m :: ms))).1
    have hbo := (hb b (List.mem_cons_self b (m :: ms))).2
    rw [List.cons_append, commandLoop_unfold, hbe, hbo]
    simp only [Bool.false_eq_true, if_false]
    rw [ih m (acc ++ b ++ ['\n']) okLine
      (fun l hl => hb l (List.mem_cons_of_mem b hl)) hok]
    simp [joinNL, List.append_assoc]

/-- The response loop of `command` on body lines none of which start with
`"ERR"` or `"OK"`, followed by an `"ERR"`-prefixed line, raises a command
error carrying the original command and the error line. -/
theorem commandLoop_err (msg : List Char) (middle : List (List Char)) :
    ∀ (b acc errLine : List Char),
      (∀ l ∈ b :: middle,
        startsWithL l errMark = false ∧ startsWithL l okMark = false) →
      startsWithL errLine errMark = true →
      commandLoop msg b (middle ++ [errLine]) acc =
        some (.err msg errLine) := by
  induction middle with
  | nil =>
    intro b acc errLine hb herr
    have hbe := (hb b (List.mem_cons_self b [])).1
    have hbo := (hb b (List.mem_cons_self b [])).2
    rw [List.nil_append, commandLoop_unfold, hbe, hbo]
    simp only [Bool.false_eq_true, if_false]
    rw [commandLoop_unfold, herr]
    simp only [if_true]
  | cons m ms ih =>
    intro b acc errLine hb herr
    have hbe := (hb b (List.mem_cons_self b (m :: ms))).1
    have hbo := (hb b (List.mem_cons_self b (m :: ms))).2
    rw [List.cons_append, commandLoop_unfold, hbe, hbo]
    simp only [Bool.false_eq_true, if_false]
    exact ih m (acc ++ b ++ ['\n']) errLine
      (fun l hl => hb l (List.mem_cons_of_mem b hl)) herr

/-- Claim C1 (amended): `Device.command(text)` writes `text` terminated by
CRLF; it skips `"emit "`/`"schema "`-prefixed lines only while they come
before the first other line of the response; from that first other line on,
every line is accumulated (newline-terminated) until a line starting with
`"OK"` arrives — returning the accumulation — or a line starting with
`"ERR"` arrives — raising a command error carrying the original text and
the error line. -/
theorem command_amended :
    (∀ (msg : List Char) (lines : List (List Char)),
      (command msg lines).1 = msg ++ ['\r', '\n']) ∧
    (∀ (msg : List Char) (es : List (List Char)) (b : List Char)
        (bs : List (List Char)) (okLine : List Char),
      (∀ l ∈ es,
        startsWithL l emitMark = true ∨ startsWithL l schemaMark = true) →
      startsWithL b emitMark = false → startsWithL b schemaMark = false →
      (∀ l ∈ b :: bs,
        startsWithL l errMark = false ∧ startsWithL l okMark = false) →
      startsWithL okLine okMark = true →
      (command msg (es ++ (b :: bs) ++ [okLine])).2 =
        some (.ok (joinNL (b :: bs)))) ∧
    (∀ (msg : List Char) (es : List (List Char)) (b : List Char)
        (bs : List (List Char)) (errLine : List Char),
      (∀ l ∈ es,
        startsWithL l emitMark = true ∨ startsWithL l schemaMark = true) →
      startsWithL b emitMark = false → startsWithL b schemaMark = false →
      (∀ l ∈ b :: bs,
        startsWithL l errMark = false ∧ startsWithL l okMark = false) →
      startsWithL errLine errMark = true →
      (command msg (es ++ (b :: bs) ++ [errLine])).2 =
        some (.err msg errLine)) := by
  have hskip : ∀ (es : List (List Char)) (b : List Char)
      (rest : List (List Char)),
      (∀ l ∈ es,
        startsWithL l emitMark = true ∨ startsWithL l schemaMark = true) →
      startsWithL b emitMark = false → startsWithL b schemaMark = false →
      commandSkipPhase (es ++ b :: rest) = b :: rest := by
    intro es b rest hes hbe hbs
    unfold commandSkipPhase
    rw [dropWhile_all_append _ es (b :: rest)
      (fun l hl => by rcases hes l hl with h | h <;> simp [h])]
    rw [List.dropWhile_cons]
    simp [hbe, hbs]
  refine ⟨fun msg lines => rfl, ?_, ?_⟩
  · intro msg es b bs okLine hes hbe hbs hbody hok
    show (match commandSkipPhase (es ++ (b :: bs) ++ [okLine]) with
      | [] => none
      | l :: ls => commandLoop msg l ls []) = some (.ok (joinNL (b :: bs)))
    rw [List.append_assoc, List.cons_append,
      hskip es b (bs ++ [okLine]) hes hbe hbs]
    show commandLoop msg b (bs ++ [okLine]) [] = some (.ok (joinNL (b :: bs)))
    rw [commandLoop_ok msg bs b [] okLine hbody hok, List.nil_append]
  · intro msg es b bs errLine hes hbe hbs hbody herr
    show (match commandSkipPhase (es ++ (b :: bs) ++ [errLine]) with
      | [] => none
      | l :: ls => commandLoop msg l ls []) = some (.err msg errLine)
    rw [List.append_assoc, List.cons_append,
      hskip es b (bs ++ [errLine]) hes hbe hbs]
    show commandLoop msg b (bs ++ [errLine]) [] = some (.err msg errLine)
    exact commandLoop_err msg bs b [] errLine hbody herr

/-- Counterexample for C1 as stated: against the inbound lines
`["a.b 3", "emit x", "OK"]`, `command "conf enumerate"` accumulates the
`"emit x"` line into the response instead of skipping it — the code only
skips `emit`/`schema` lines arriving before the first other line —
returning `"a.b 3\nemit x\n"` rather than `"a.b 3\n"`. -/
theorem command_counterexample :
    (command
        ['c', 'o', 'n', 'f', ' ', 'e', 'n', 'u', 'm', 'e', 'r', 'a', 't', 'e']
        [['a', '.', 'b', ' ', '3'], ['e', 'm', 'i', 't', ' ', 'x'],
         ['O', 'K']]).2 =
      some (.ok ['a', '.', 'b', ' ', '3', '\n',
                 'e', 'm', 'i', 't', ' ', 'x', '\n']) ∧
    some (CmdOutcome.ok ['a', '.', 'b', ' ', '3', '\n',
                 'e', 'm', 'i', 't', ' ', 'x', '\n']) ≠
      some (.ok ['a', '.', 'b', ' ', '3', '\n']) := by decide

/-- Witness for C1 (amended), which is also the claim's own example: two
leading `"emit x"` pushes are skipped, then `"a.b 3"` is accumulated and
`"OK"` terminates, returning `"a.b 3\n"`. -/
theorem command_amended_witness :
    (command
        ['c', 'o', 'n', 'f', ' ', 'e', 'n', 'u', 'm', 'e', 'r', 'a', 't', 'e']
        [['e', 'm', 'i', 't', ' ', 'x'], ['e', 'm', 'i', 't', ' ', 'x'],
         ['a', '.', 'b', ' ', '3'], ['O', 'K']]).2 =
      some (.ok (joinNL [['a', '.', 'b', ' ', '3']])) :=
  (command_amended).2.1
    ['c', 'o', 'n', 'f', ' ', 'e', 'n', 'u', 'm', 'e', 'r', 'a', 't', 'e']
    [['e', 'm', 'i', 't', ' ', 'x'], ['e', 'm', 'i', 't', ' ', 'x']]
    ['a', '.', 'b', ' ', '3'] [] ['O', 'K']
    (by decide) (by decide) (by decide) (by decide) (by decide)

/-- An empty buffer holds no line. -/
theorem rmel_nil : read_maybe_empty_line [] = none := rfl

/-- A returned maybe-empty line consumes at least one buffered byte. -/
theorem rmel_some_lt {rd l rest : List Nat}
    (h : read_maybe_empty_line rd = some (l, rest)) :
    rest.length < rd.length := by
  unfold read_maybe_empty_line at h
  rcases hf : rd.findIdx? isNewlineByte with _ | i
  · rw [hf] at h; exact absurd h (by simp)
  · rw [hf] at h
    obtain ⟨hi, -, -⟩ := List.findIdx?_eq_some_iff_getElem.mp hf
    have : rest = rd.drop (i + 1) := by
      have := Option.some_inj.mp h
      exact (congrArg Prod.snd this).symm
    rw [this, List.length_drop]
    omega

/-- `readline` on an empty buffer suspends, at any fuel. -/
theorem readlineF_nil (fuel : Nat) : readlineF fuel [] = none := by
  cases fuel with
  | zero => rfl
  | succ f => rw [readlineF, rmel_nil]

/-- Fuel irrelevance for `readlineF`: any fuel at least the buffer length
gives the same result. -/
theorem readlineF_irrel :
    ∀ (f1 f2 : Nat) (rd : List Nat), rd.length ≤ f1 → rd.length ≤ f2 →
      readlineF f1 rd = readlineF f2 rd := by
  intro f1
  induction f1 with
  | zero =>
    intro f2 rd h1 _
    have : rd = [] := List.length_eq_zero.mp (by omega)
    subst this
    rw [readlineF_nil, readlineF_nil]
  | succ f1 ih =>
    intro f2 rd h1 h2
    cases f2 with
    | zero =>
      have : rd = [] := List.length_eq_zero.mp (by omega)
      subst this
      rw [readlineF_nil, readlineF_nil]
    | succ f2 =>
      rw [readlineF, readlineF]
      rcases hm : read_maybe_empty_line rd with _ | ⟨line, rest⟩
      · rfl
      · have hlt := rmel_some_lt hm
        by_cases hs : (rstripB line).length ≠ 0
        · simp [hs]
        · simp only [hs, if_neg, ite_false]
          exact ih f2 rest (by omega) (by omega)

/-- A line returned by `readline` consumed buffered bytes. -/
theorem readlineF_some_lt :
    ∀ (fuel : Nat) {rd l rest : List Nat},
      readlineF fuel rd = some (l, rest) → rest.length < rd.length := by
  intro fuel
  induction fuel with
  | zero => intro rd l rest h; exact absurd h (by simp [readlineF])
  | succ f ih =>
    intro rd l rest h
    rw [readlineF] at h
    rcases hm : read_maybe_empty_line rd with _ | ⟨line, rest0⟩
    · rw [hm] at h; exact absurd h (by simp)
    · rw [hm] at h
      dsimp only at h
      have hlt := rmel_some_lt hm
      by_cases hs : (rstripB line).length ≠ 0
      · rw [if_pos hs] at h
        have h2 : rest0 = rest := congrArg Prod.snd (Option.some_inj.mp h)
        rw [← h2]
        exact hlt
      · rw [if_neg hs] at h
        exact lt_trans (ih h) hlt

/-- A line returned by `readline` is never empty. -/
theorem readlineF_some_ne_nil :
    ∀ (fuel : Nat) {rd l rest : List Nat},
      readlineF fuel rd = some (l, rest) → l ≠ [] := by
  intro fuel
  induction fuel with
  | zero => intro rd l rest h; exact absurd h (by simp [readlineF])
  | succ f ih =>
    intro rd l rest h
    rw [readlineF] at h
    rcases hm : read_maybe_empty_line rd with _ | ⟨line, rest0⟩
    · rw [hm] at h; exact absurd h (by simp)
    · rw [hm] at h
      dsimp only at h
      by_cases hs : (rstripB line).length ≠ 0
      · rw [if_pos hs] at h
        have hl : rstripB line = l := congrArg Prod.fst (Option.some_inj.mp h)
        intro hnil
        rw [hnil] at hl
        rw [hl] at hs
        exact hs rfl
      · rw [if_neg hs] at h
        exact ih h

/-- In a buffer `l ++ 13 :: rest` whose prefix `l` holds no terminator
byte, the first terminator sits at index `l.length`. -/
theorem findIdx_nl_encoded (l rest : List Nat)
    (hl : ∀ b ∈ l, isNewlineByte b = false) :
    (l ++ 13 :: rest).findIdx? isNewlineByte = some l.length := by
  induction l with
  | nil => simp [isNewlineByte]
  | cons a l ih =>
    rw [List.cons_append, List.findIdx?_cons]
    rw [hl a (List.mem_cons_self a l)]
    simp only [Bool.false_eq_true, if_false, List.findIdx?_start_succ]
    rw [ih fun b hb => hl b (List.mem_cons_of_mem a hb)]
    simp

/-- Splitting one encoded line off the buffer. -/
theorem rmel_encoded (l rest : List Nat)
    (hl : ∀ b ∈ l, isNewlineByte b = false) :
    read_maybe_empty_line (l ++ 13 :: rest) = some (l ++ [13], rest) := by
  unfold read_maybe_empty_line
  rw [findIdx_nl_encoded l rest hl]
  dsimp only
  have htake : (l ++ 13 :: rest).take (l.length + 1) = l ++ [13] := by
    rw [List.take_append]
    simp
  have hdrop : (l ++ 13 :: rest).drop (l.length + 1) = rest := by
    rw [List.drop_append]
    simp
  rw [htake, hdrop]

/-- Stripping the terminator: `rstrip` of `l ++ [13]` equals `rstrip l`. -/
theorem rstripB_append_cr (l : List Nat) : rstripB (l ++ [13]) = rstripB l := by
  unfold rstripB
  rw [List.reverse_append]
  simp [List.dropWhile_cons, isSpaceByte]

/-- `readline` on an encoded line list: returns the stripped first line if
it is non-empty after stripping, otherwise skips it. -/
theorem readlineB_encoded_cons (l : List Nat) (ls : List (List Nat))
    (hl : ∀ b ∈ l, isNewlineByte b = false) :
    readlineB (encodeLines (l :: ls)) =
      if (rstripB l).length ≠ 0 then some (rstripB l, encodeLines ls)
      else readlineB (encodeLines ls) := by
  have henc : encodeLines (l :: ls) = l ++ 13 :: encodeLines ls := rfl
  have hlen : (encodeLines (l :: ls)).length =
      (l.length + (encodeLines ls).length) + 1 := by
    rw [henc]; simp [List.length_append]; omega
  rw [readlineB, hlen, readlineF]
  rw [henc, rmel_encoded l (encodeLines ls) hl]
  dsimp only
  rw [rstripB_append_cr]
  by_cases hs : (rstripB l).length ≠ 0
  · rw [if_pos hs, if_pos hs]
  · rw [if_neg hs, if_neg hs]
    exact readlineF_irrel _ _ _ (by omega) (by omega)

/-- `readAllLines` of an empty buffer is empty, at any fuel. -/
theorem readAllLinesF_nil (fuel : Nat) : readAllLinesF fuel [] = [] := by
  cases fuel with
  | zero => rfl
  | succ f =>
    rw [readAllLinesF]
    rw [show readlineB [] = none from readlineF_nil 0]

/-- Fuel irrelevance for `readAllLinesF`. -/
theorem readAllLinesF_irrel :
    ∀ (f1 f2 : Nat) (rd : List Nat), rd.length ≤ f1 → rd.length ≤ f2 →
      readAllLinesF f1 rd = readAllLinesF f2 rd := by
  intro f1
  induction f1 with
  | zero =>
    intro f2 rd h1 _
    have : rd = [] := List.length_eq_zero.mp (by omega)
    subst this
    rw [readAllLinesF_nil, readAllLinesF_nil]
  | succ f1 ih =>
    intro f2 rd h1 h2
    cases f2 with
    | zero =>
      have : rd = [] := List.length_eq_zero.mp (by omega)
      subst this
      rw [readAllLinesF_nil, readAllLinesF_nil]
    | succ f2 =>
      rw [readAllLinesF, readAllLinesF]
      rcases hm : readlineB rd with _ | ⟨l, rest⟩
      · rfl
      · dsimp only
        have hlt : rest.length < rd.length := readlineF_some_lt _ hm
        rw [ih f2 rest (by omega) (by omega)]

/-- Successive `readline` calls on an encoded line list return the
right-stripped lines, in order, skipping those empty after stripping. -/
theorem readAllLinesF_encoded :
    ∀ (ls : List (List Nat)) (fuel : Nat),
      (encodeLines ls).length ≤ fuel →
      (∀ l ∈ ls, ∀ b ∈ l, isNewlineByte b = false) →
      readAllLinesF fuel (encodeLines ls) =
        (ls.map rstripB).filter (fun l => decide (l ≠ [])) := by
  intro ls
  induction ls with
  | nil =>
    intro fuel _ _
    rw [show encodeLines [] = [] from rfl, readAllLinesF_nil]
    rfl
  | cons l ls ih =>
    intro fuel hfuel hnl
    have henc : encodeLines (l :: ls) = l ++ 13 :: encodeLines ls := rfl
    have hlen : (encodeLines (l :: ls)).length =
        l.length + (encodeLines ls).length + 1 := by
      rw [henc]; simp [List.length_append]; omega
    cases fuel with
    | zero => exfalso; omega
    | succ f =>
      rw [readAllLinesF]
      rw [readlineB_encoded_cons l ls (hnl l (List.mem_cons_self l ls))]
      have hnl' : ∀ l' ∈ ls, ∀ b ∈ l', isNewlineByte b = false :=
        fun l' hl' => hnl l' (List.mem_cons_of_mem l hl')
      by_cases hs : (rstripB l).length ≠ 0
      · rw [if_pos hs]
        dsimp only
        rw [ih f (by omega) hnl']
        have hne : rstripB l ≠ [] := by
          intro hnil
          rw [hnil] at hs
          exact hs rfl
        simp [List.filter_cons, hne]
      · rw [if_neg hs]
        have hstep : (match readlineB (encodeLines ls) with
            | none => ([] : List (List Nat))
            | some (l, rest) => l :: readAllLinesF f rest) =
              readAllLinesF (f + 1) (encodeLines ls) := rfl
        rw [hstep, ih (f + 1) (by omega) hnl']
        have hempty : rstripB l = [] := by
          rcases h0 : rstripB l with _ | ⟨a, as⟩
          · rfl
          · exfalso; rw [h0] at hs; simp at hs
        simp [List.filter_cons, hempty]

/-- Claim C5 (amended): for buffers formed by well-formed `accept` calls,
successive `readLine()` calls return the bytes between successive CR/LF
delimiters in order, with the delimiter *and any further trailing ASCII
whitespace* stripped (Python's `rstrip()`), never returning a line that is
empty after stripping (such lines are consumed and skipped). -/
theorem readline_amended :
    (∀ ls : List (List Nat),
      (∀ l ∈ ls, ∀ b ∈ l, isNewlineByte b = false) →
      readAllLines (encodeLines ls) =
        (ls.map rstripB).filter (fun l => decide (l ≠ []))) ∧
    (∀ (rd l rest : List Nat), readlineB rd = some (l, rest) → l ≠ []) := by
  constructor
  · intro ls hnl
    exact readAllLinesF_encoded ls (encodeLines ls).length (le_refl _) hnl
  · intro rd l rest h
    exact readlineF_some_ne_nil _ h

/-- Counterexample for C5 as stated: the buffer `b"ab \rc\r"` (bytes
`[97, 98, 32, 13, 99, 13]`) makes `readline` return `b"ab"` — the bytes
between the start and the first delimiter are `b"ab "` with a trailing
space, but `rstrip()` removes the space too, so the returned line is not
exactly the bytes between delimiters with only delimiters stripped. -/
theorem readline_counterexample :
    readlineB [97, 98, 32, 13, 99, 13] = some ([97, 98], [99, 13]) ∧
    ([97, 98] : List Nat) ≠ [97, 98, 32] := by decide

/-- Witness for C5 (amended): lines `b"ab"`, `b""` (skipped), `b"c"` come
back in order with delimiters stripped; and a concrete returned line is
non-empty. -/
theorem readline_amended_witness :
    readAllLines (encodeLines [[97, 98], [], [99]]) = [[97, 98], [99]] ∧
    ([97] : List Nat) ≠ [] :=
  ⟨((readline_amended).1 [[97, 98], [], [99]] (by decide)).trans (by decide),
   (readline_amended).2 [97, 13] [97] [] (by decide)⟩

/-- Claim C8: `Record.update` (i) appends the sample without evicting while
the history holds fewer than `MAX_HISTORY_SIZE = 100` samples, (ii) evicts
exactly the oldest sample once the appended history exceeds the capacity,
(iii) computes an attached `__MEAN_x` signal over the entire retained
history — samples `1, 2, 3` for field `x` give exactly `2` — and (iv)
returns `true` iff at least one signal had at least one subscriber to
deliver the update to. -/
theorem record_update_spec :
    (∀ (r : RecordM) (s : Struct), r.history.length < MAX_HISTORY_SIZE →
      (recordUpdate r s).1.history = r.history ++ [s]) ∧
    (∀ (r : RecordM) (s : Struct), r.history.length = MAX_HISTORY_SIZE →
      (recordUpdate r s).1.history = r.history.drop 1 ++ [s]) ∧
    (∀ (subs : Nat) (s1 s2 s3 : Struct),
      s1 ['x'] = 1 → s2 ['x'] = 2 → s3 ['x'] = 3 →
      (recordUpdate ⟨[s1, s2],
          [(['_', '_', 'M', 'E', 'A', 'N', '_', 'x'], subs)]⟩ s3).2.1 =
        [(['_', '_', 'M', 'E', 'A', 'N', '_', 'x'], .num 2)]) ∧
    (∀ (r : RecordM) (s : Struct),
      (recordUpdate r s).2.2 = true ↔ ∃ kv ∈ r.signals, kv.2 ≠ 0) := by
  refine ⟨?_, ?_, ?_, ?_⟩
  · intro r s h
    show (if (r.history ++ [s]).length > MAX_HISTORY_SIZE
        then (r.history ++ [s]).drop 1 else r.history ++ [s]) =
      r.history ++ [s]
    rw [if_neg]
    simp only [List.length_append, List.length_cons, List.length_nil,
      MAX_HISTORY_SIZE] at h ⊢
    omega
  · intro r s h
    show (if (r.history ++ [s]).length > MAX_HISTORY_SIZE
        then (r.history ++ [s]).drop 1 else r.history ++ [s]) =
      r.history.drop 1 ++ [s]
    have h100 : r.history.length = 100 := h
    rw [if_pos]
    · exact List.drop_append_of_le_length (by omega)
    · simp only [List.length_append, List.length_cons, List.length_nil]
      simp only [MAX_HISTORY_SIZE]
      omega
  · intro subs s1 s2 s3 h1 h2 h3
    simp only [recordUpdate]
    rw [if_neg (by simp [MAX_HISTORY_SIZE])]
    simp only [List.map_cons, List.map_nil, computeSignalValue, startsWithL]
    norm_num
    rw [h1, h2, h3]
    norm_num [listMean, List.sum_cons]
  · intro r s
    show decide ((r.signals.filter fun s => s.2 ≠ 0).length ≠ 0) = true ↔ _
    rw [decide_eq_true_iff]
    rw [Ne, List.length_eq_zero, List.filter_eq_nil_iff]
    simp

/-- Witness for C8: appending to a short history and the `__MEAN_x = 2`
example with concrete samples. -/
theorem record_update_spec_witness :
    (recordUpdate ⟨[], []⟩ (fun _ => (1 : ℚ))).1.history =
      [] ++ [fun _ => (1 : ℚ)] ∧
    (recordUpdate ⟨[fun _ => (1 : ℚ), fun _ => (2 : ℚ)],
        [(['_', '_', 'M', 'E', 'A', 'N', '_', 'x'], 4)]⟩
        (fun _ => (3 : ℚ))).2.1 =
      [(['_', '_', 'M', 'E', 'A', 'N', '_', 'x'], .num 2)] :=
  ⟨(record_update_spec).1 ⟨[], []⟩ (fun _ => (1 : ℚ)) (by decide),
   (record_update_spec).2.2.1 4 (fun _ => (1 : ℚ)) (fun _ => (2 : ℚ))
     (fun _ => (3 : ℚ)) rfl rfl rfl⟩

/-- Claim C10: `Device.do_data` leaves every telemetry record unchanged
when the sized-block read yields a falsy result (`False` or an empty
block — indistinguishable in `if not data:`) or when the name is unknown;
on a nonempty block for a known record it updates exactly that record via
`Record.update` and leaves every other record untouched. -/
theorem do_data_spec :
    (∀ (records : List (List Char × RecordM)) (name : List Char)
        (decode : List Nat → Struct),
      do_data records name none decode = records) ∧
    (∀ (records : List (List Char × RecordM)) (name : List Char)
        (decode : List Nat → Struct),
      do_data records name (some []) decode = records) ∧
    (∀ (records : List (List Char × RecordM)) (name : List Char)
        (data : List Nat) (decode : List Nat → Struct),
      (records.find? fun kv => kv.1 = name).isNone = true →
      do_data records name (some data) decode = records) ∧
    (∀ (records : List (List Char × RecordM)) (name : List Char)
        (data : List Nat) (decode : List Nat → Struct)
        (kv0 : List Char × RecordM),
      data ≠ [] →
      records.find? (fun kv => kv.1 = name) = some kv0 →
      do_data records name (some data) decode =
        records.map fun kv =>
          if kv.1 = name then (kv.1, (recordUpdate kv.2 (decode data)).1)
          else kv) ∧
    (∀ (records : List (List Char × RecordM)) (name : List Char)
        (blockRet : Option (List Nat)) (decode : List Nat → Struct)
        (kv : List Char × RecordM),
      kv ∈ records → kv.1 ≠ name →
      kv ∈ do_data records name blockRet decode) := by
  refine ⟨fun _ _ _ => rfl, fun _ _ _ => rfl, ?_, ?_, ?_⟩
  · intro records name data decode h
    show (if data.length = 0 then records
      else if (records.find? fun kv => kv.1 = name).isNone then records
      else records.map fun kv =>
        if kv.1 = name then (kv.1, (recordUpdate kv.2 (decode data)).1)
        else kv) = records
    by_cases h1 : data.length = 0
    · rw [if_pos h1]
    · rw [if_neg h1, if_pos h]
  · intro records name data decode kv0 hdata hfind
    show (if data.length = 0 then records
      else if (records.find? fun kv => kv.1 = name).isNone then records
      else records.map fun kv =>
        if kv.1 = name then (kv.1, (recordUpdate kv.2 (decode data)).1)
        else kv) =
      records.map fun kv =>
        if kv.1 = name then (kv.1, (recordUpdate kv.2 (decode data)).1)
        else kv
    rw [if_neg (by simpa using hdata)]
    rw [if_neg (by rw [hfind]; simp)]
  · intro records name blockRet decode kv hmem hne
    rcases blockRet with _ | data
    · exact hmem
    · show kv ∈ (if data.length = 0 then records
        else if (records.find? fun kv => kv.1 = name).isNone then records
        else records.map fun kv =>
          if kv.1 = name then (kv.1, (recordUpdate kv.2 (decode data)).1)
          else kv)
      split_ifs with h1 h2
      · exact hmem
      · exact hmem
      · have heq : (if kv.1 = name then
            (kv.1, (recordUpdate kv.2 (decode data)).1) else kv) = kv :=
          if_neg hne
        rw [← heq]
        exact List.mem_map_of_mem _ hmem

/-- Witness for C10: a one-record map is unchanged for an unknown name and
updated pointwise for its own name; an entry with a different key stays. -/
theorem do_data_spec_witness :
    do_data [(['a'], ⟨[], []⟩)] ['b'] (some [5]) (fun _ _ => (0 : ℚ)) =
      [(['a'], ⟨[], []⟩)] ∧
    do_data [(['a'], ⟨[], []⟩)] ['a'] (some [5]) (fun _ _ => (0 : ℚ)) =
      [(['a'], ⟨[], []⟩)].map (fun kv =>
        if kv.1 = ['a'] then
          (kv.1, (recordUpdate kv.2 ((fun _ _ => (0 : ℚ)) [5])).1)
        else kv) ∧
    (['c'], (⟨[], []⟩ : RecordM)) ∈
      do_data [(['c'], ⟨[], []⟩)] ['a'] none (fun _ _ => (0 : ℚ)) :=
  ⟨(do_data_spec).2.2.1 [(['a'], ⟨[], []⟩)] ['b'] [5] (fun _ _ => (0 : ℚ))
     (by rfl),
   (do_data_spec).2.2.2.1 [(['a'], ⟨[], []⟩)] ['a'] [5] (fun _ _ => (0 : ℚ))
     (['a'], ⟨[], []⟩) (by simp) (by rfl),
   (do_data_spec).2.2.2.2 [(['c'], ⟨[], []⟩)] ['a'] none (fun _ _ => (0 : ℚ))
     (['c'], ⟨[], []⟩) (by simp) (by decide)⟩
